import Mathlib

/-!
Formal model of the position-state core of the `andrej` chess engine
(`src/main.rs`).  The data model (coordinates, pieces, the 120-cell
sentinel-padded board grid, aggregate counters, castling rights, the
undo history) is embedded shallowly: Rust `u8`/`u32`/`u64` fields become
`Nat` with explicit wrap-around (`% 256`, `% 2^32`) where overflow can
matter, enums become inductives, structs become structures, and
`Board::new` becomes `Board.new`.  The make/unmake machinery (`apply`,
`undo`) is absent from the source and is modelled from the
specification where needed; those definitions say so in their doc
comments.
-/

set_option maxRecDepth 100000

namespace Chess

/-- Square indices of the 120-cell mailbox grid (`type SquareIndex = u8`). -/
abbrev SquareIndex := Nat

/-- Piece kinds, mirroring `enum PieceKind` in the source. -/
inductive PieceKind
  | Pawn
  | Knight
  | Bishop
  | Rook
  | Queen
  | King
deriving DecidableEq, Repr

/-- Side colors, mirroring `enum Color`. -/
inductive Color
  | White
  | Black
deriving DecidableEq, Repr

/-- The opposite color (used by the modelled make/unmake contract). -/
def Color.opposite : Color → Color
  | .White => .Black
  | .Black => .White

/-- Unicode glyph of a piece kind, mirroring `PieceKind::to_unicode`.
The source ignores its `_color` argument and always returns the filled
glyph; the model keeps the (ignored) color parameter. -/
def PieceKind.to_unicode : PieceKind → Color → String
  | .Pawn, _ => "♟"
  | .Knight, _ => "♞"
  | .Bishop, _ => "♝"
  | .Rook, _ => "♜"
  | .Queen, _ => "♛"
  | .King, _ => "♚"

/-- A piece: kind plus color, mirroring `struct Piece`. -/
structure Piece where
  kind : PieceKind
  color : Color
deriving DecidableEq, Repr

/-- Files a..h, mirroring `enum File` (discriminants 0..7). -/
inductive File
  | A
  | B
  | C
  | D
  | E
  | F
  | G
  | H
deriving DecidableEq, Repr

/-- Numeric value of a file, mirroring `File as u8`. -/
def File.toNat : File → Nat
  | .A => 0
  | .B => 1
  | .C => 2
  | .D => 3
  | .E => 4
  | .F => 5
  | .G => 6
  | .H => 7

/-- Letter of a file, mirroring `File::to_char` (97 plus the file value). -/
def File.to_char (f : File) : Char := Char.ofNat (97 + f.toNat)

/-- Ranks 1..8, mirroring `enum Rank` (discriminants 0..7). -/
inductive Rank
  | One
  | Two
  | Three
  | Four
  | Five
  | Six
  | Seven
  | Eight
deriving DecidableEq, Repr

/-- Numeric value of a rank, mirroring `Rank as u8`. -/
def Rank.toNat : Rank → Nat
  | .One => 0
  | .Two => 1
  | .Three => 2
  | .Four => 3
  | .Five => 4
  | .Six => 5
  | .Seven => 6
  | .Eight => 7

/-- Digit of a rank, mirroring `Rank::to_char` (49 plus the rank value). -/
def Rank.to_char (r : Rank) : Char := Char.ofNat (49 + r.toNat)

/-- A board coordinate, mirroring `struct Position`. -/
structure Position where
  file : File
  rank : Rank
deriving DecidableEq, Repr

/-- Linear square index, mirroring `Position::to_index`:
`(rank + 2) * 10 + (file + 1)`. -/
def Position.to_index (p : Position) : SquareIndex :=
  (p.rank.toNat + 2) * 10 + (p.file.toNat + 1)

/-- Same arithmetic performed with `u8` wrap-around at every step, as in
the source where the computation runs on `SquareIndex = u8`. -/
def Position.to_index_u8 (p : Position) : Nat :=
  ((((p.rank.toNat + 2) % 256) * 10) % 256 + ((p.file.toNat + 1) % 256)) % 256

/-- Two-character algebraic rendering, mirroring `impl Display for
Position` (`file.to_char()` then `rank.to_char()`). -/
def Position.toAlgebraic (p : Position) : String :=
  String.mk [p.file.to_char, p.rank.to_char]

/-- Grid cell content, mirroring `enum Square`. -/
inductive Square
  | Empty
  | Occupied (piece : Piece)
  | OffBoard
deriving DecidableEq, Repr

/-- Per-kind piece counts, mirroring `struct PieceKindCounts` (`u8` fields). -/
structure PieceKindCounts where
  pawns : Nat
  knights : Nat
  bishops : Nat
  rooks : Nat
  queens : Nat
  kings : Nat
deriving DecidableEq, Repr

/-- White/black/both triple, mirroring `struct ColoredData<T>`. -/
structure ColoredData (T : Type) where
  white : T
  black : T
  both : T
deriving DecidableEq, Repr

/-- White/black pair, mirroring `struct ColoredPair<T>`. -/
structure ColoredPair (T : Type) where
  white : T
  black : T
deriving DecidableEq, Repr

/-- Castling-right flags, mirroring `enum CastlingRight`. -/
inductive CastlingRight
  | WhiteKingSide
  | WhiteQueenSide
  | BlackKingSide
  | BlackQueenSide
deriving DecidableEq, Repr

/-- Bit value of a castling right, mirroring the source discriminants. -/
def CastlingRight.toNat : CastlingRight → Nat
  | .WhiteKingSide => 1
  | .WhiteQueenSide => 2
  | .BlackKingSide => 4
  | .BlackQueenSide => 8

/-- All eight files in order. -/
def allFiles : List File := [.A, .B, .C, .D, .E, .F, .G, .H]

/-- All eight ranks in order. -/
def allRanks : List Rank := [.One, .Two, .Three, .Four, .Five, .Six, .Seven, .Eight]

/-- All 64 playable coordinates. -/
def allPositions : List Position :=
  allRanks.flatMap (fun r => allFiles.map (fun f => ⟨f, r⟩))

instance : Fintype File :=
  Fintype.ofList allFiles (fun f => by cases f <;> decide)

instance : Fintype Rank :=
  Fintype.ofList allRanks (fun r => by cases r <;> decide)

instance : Fintype Position :=
  Fintype.ofList allPositions (fun p => by
    obtain ⟨f, r⟩ := p
    cases f <;> cases r <;> decide)

/-- Back-rank piece kind per file, mirroring the `white_back_rank` /
`black_back_rank` placement arrays in `Board::new`. -/
def backRankKind : File → PieceKind
  | .A => .Rook
  | .B => .Knight
  | .C => .Bishop
  | .D => .Queen
  | .E => .King
  | .F => .Bishop
  | .G => .Knight
  | .H => .Rook

/-- Content the initialization loops of `Board::new` write at a playable
coordinate: back ranks, pawn ranks, `Empty` elsewhere. -/
def startPieceAt : Position → Square
  | ⟨f, .One⟩ => .Occupied ⟨backRankKind f, .White⟩
  | ⟨_, .Two⟩ => .Occupied ⟨.Pawn, .White⟩
  | ⟨_, .Seven⟩ => .Occupied ⟨.Pawn, .Black⟩
  | ⟨f, .Eight⟩ => .Occupied ⟨backRankKind f, .Black⟩
  | _ => .Empty

/-- The grid produced by `Board::new`: the 120-cell array starts all
`OffBoard`, the 64 playable cells are set to `Empty` and then receive
the starting pieces.  Since all writes target distinct indices, the
result at index `i` is the piece for the unique coordinate mapping to
`i`, or `OffBoard` when no coordinate maps to `i`. -/
def startSquares (i : SquareIndex) : Square :=
  match allPositions.find? (fun p => p.to_index == i) with
  | some p => startPieceAt p
  | none => .OffBoard

/-- Modelled from the spec: a transition descriptor supplied by external
move generation (§6): source square, destination square, special-move
tag for castling / en-passant capture (plain moves carry no tag). -/
inductive SpecialTag
  | Normal
  | Castling
  | EnPassant
deriving DecidableEq, Repr

/-- Modelled from the spec: the full transition descriptor of §6
(source square, destination square, piece kind moved, optional captured
piece, optional promotion kind, optional special-move tag).  The source
only stores transitions as a bare `u32` inside `Undo`; the fields
here follow the enumeration in the spec. -/
structure Transition where
  src : Position
  dst : Position
  moved : PieceKind
  captured : Option Piece
  promotion : Option PieceKind
  tag : SpecialTag
deriving DecidableEq, Repr

/-- Undo record, mirroring `struct Undo`: the transition applied plus the
prior castling rights, en-passant target, fifty-move counter and
position key (and nothing else). -/
structure Undo where
  move_ : Transition
  castling_rights : Nat
  en_passant_target : Option Position
  fifty_move_counter : Nat
  position_key : Nat
deriving DecidableEq, Repr

/-- The position aggregate, mirroring `struct Board`.  The 120-cell
array is embedded as a function on square indices; `u8`/`u32`/`u64`
fields are `Nat` with wrap-around applied where the operations could
overflow. -/
structure Board where
  squares : SquareIndex → Square
  turn : Color
  en_passant_target : Option Position
  pawns : ColoredData Nat
  pieces : ColoredData PieceKindCounts
  big_pieces : ColoredData Nat
  major_pieces : ColoredData Nat
  minor_pieces : ColoredData Nat
  kings : ColoredPair Position
  position_key : Nat
  castling_rights : Nat
  fifty_moves : Nat
  history : List Undo
  ply : Nat

/-- The initial position, mirroring `Board::new`: starting grid, White
to move, no en-passant target, default (zero) bitboards and counters,
kings cached at e1/e8, zero position key, all four castling rights,
zero fifty-move counter, empty history, ply 0. -/
def Board.new : Board where
  squares := startSquares
  turn := .White
  en_passant_target := none
  pawns := ⟨0, 0, 0⟩
  pieces := ⟨⟨0, 0, 0, 0, 0, 0⟩, ⟨0, 0, 0, 0, 0, 0⟩, ⟨0, 0, 0, 0, 0, 0⟩⟩
  big_pieces := ⟨0, 0, 0⟩
  major_pieces := ⟨0, 0, 0⟩
  minor_pieces := ⟨0, 0, 0⟩
  kings := ⟨⟨.E, .One⟩, ⟨.E, .Eight⟩⟩
  position_key := 0
  castling_rights :=
    CastlingRight.WhiteKingSide.toNat |||
    CastlingRight.WhiteQueenSide.toNat |||
    CastlingRight.BlackKingSide.toNat |||
    CastlingRight.BlackQueenSide.toNat
  fifty_moves := 0
  history := []
  ply := 0

/-- Wrapping `u8` increment (`x + 1` on a `u8`). -/
def incU8 (x : Nat) : Nat := (x + 1) % 256

/-- Wrapping `u8` decrement (`x - 1` on a `u8`). -/
def decU8 (x : Nat) : Nat := (x + 255) % 256

/-- Conditional wrapping increment. -/
def condInc (b : Bool) (x : Nat) : Nat := if b then incU8 x else x

/-- Conditional wrapping decrement. -/
def condDec (b : Bool) (x : Nat) : Nat := if b then decU8 x else x

/-- Apply a function to the count of one piece kind. -/
def PieceKindCounts.modifyK (c : PieceKindCounts) (k : PieceKind) (f : Nat → Nat) :
    PieceKindCounts :=
  match k with
  | .Pawn => { c with pawns := f c.pawns }
  | .Knight => { c with knights := f c.knights }
  | .Bishop => { c with bishops := f c.bishops }
  | .Rook => { c with rooks := f c.rooks }
  | .Queen => { c with queens := f c.queens }
  | .King => { c with kings := f c.kings }

/-- All six counts fit in a `u8`. -/
def PieceKindCounts.ltU8 (c : PieceKindCounts) : Prop :=
  c.pawns < 256 ∧ c.knights < 256 ∧ c.bishops < 256 ∧
  c.rooks < 256 ∧ c.queens < 256 ∧ c.kings < 256

instance (c : PieceKindCounts) : Decidable c.ltU8 := by
  unfold PieceKindCounts.ltU8
  infer_instance

/-- The slot of one color in a `ColoredData`. -/
def ColoredData.get {T : Type} (d : ColoredData T) (c : Color) : T :=
  match c with
  | .White => d.white
  | .Black => d.black

/-- Apply a function to the slot of one color and to the `both` slot — the
shape of every incremental counter update. -/
def ColoredData.modifyCB {T : Type} (d : ColoredData T) (c : Color) (f : T → T) :
    ColoredData T :=
  match c with
  | .White => { d with white := f d.white, both := f d.both }
  | .Black => { d with black := f d.black, both := f d.both }

/-- The slot of one color in a `ColoredPair`. -/
def ColoredPair.get {T : Type} (d : ColoredPair T) (c : Color) : T :=
  match c with
  | .White => d.white
  | .Black => d.black

/-- Replace the slot of one color in a `ColoredPair`. -/
def ColoredPair.setC {T : Type} (d : ColoredPair T) (c : Color) (x : T) :
    ColoredPair T :=
  match c with
  | .White => { d with white := x }
  | .Black => { d with black := x }

/-- Big pieces are the non-pawns (spec §3). -/
def PieceKind.isBig (k : PieceKind) : Bool := k != .Pawn

/-- Major pieces are rooks and queens (spec §3). -/
def PieceKind.isMajor (k : PieceKind) : Bool := k == .Rook || k == .Queen

/-- Minor pieces are knights and bishops (spec §3). -/
def PieceKind.isMinor (k : PieceKind) : Bool := k == .Knight || k == .Bishop

/-- Modelled from the spec: bit position of a coordinate inside a
64-bit pawn bitboard (the source defines no square-to-bit mapping; the
conventional `rank * 8 + file` is used). -/
def Position.bitIndex (p : Position) : Nat := p.rank.toNat * 8 + p.file.toNat

/-- Single-bit mask of a coordinate inside a 64-bit bitboard. -/
def Position.bitMask (p : Position) : Nat := 2 ^ p.bitIndex

/-- Modelled from the spec: the square a captured piece stood on — the
destination square, except for an en-passant capture, where the
captured pawn stands beside the source rank on the destination file. -/
def Transition.capturedSquare (t : Transition) : Position :=
  match t.tag with
  | .EnPassant => ⟨t.dst.file, t.src.rank⟩
  | _ => t.dst

/-- Grid content representing the captured piece (or emptiness). -/
def capturedSquareContent (t : Transition) : Square :=
  match t.captured with
  | some p => .Occupied p
  | none => .Empty

/-- What the destination square held before the transition: for an
en-passant capture it was empty, otherwise the captured piece or empty. -/
def Transition.dstRestore (t : Transition) : Square :=
  match t.tag with
  | .EnPassant => .Empty
  | _ => capturedSquareContent t

/-- Modelled from the spec: the source corner of the rook in a castling
transition, determined by the destination file of the king. -/
def Transition.rookFrom (t : Transition) : Position :=
  ⟨if t.dst.file = .C then .A else .H, t.dst.rank⟩

/-- Modelled from the spec: the destination square of the rook in a castling
transition. -/
def Transition.rookTo (t : Transition) : Position :=
  ⟨if t.dst.file = .C then .D else .F, t.dst.rank⟩

/-- Modelled from the spec: the Board Grid mutation of `apply` — the
moved (possibly promoted) piece leaves the source square and lands on
the destination; an en-passant capture also clears the square of the captured
pawn and castling also moves the rook.  `m` is the moving color. -/
def Transition.applyGrid (t : Transition) (m : Color) (sq : SquareIndex → Square) :
    SquareIndex → Square :=
  fun i =>
    if i = t.src.to_index then .Empty
    else if i = t.dst.to_index then .Occupied ⟨t.promotion.getD t.moved, m⟩
    else
      match t.tag with
      | .Normal => sq i
      | .EnPassant => if i = t.capturedSquare.to_index then .Empty else sq i
      | .Castling =>
        if i = t.rookFrom.to_index then .Empty
        else if i = t.rookTo.to_index then .Occupied ⟨.Rook, m⟩
        else sq i

/-- Modelled from the spec: the exact inverse Board Grid mutation
performed by `undo`, reconstructed from the transition stored in the
popped `Undo` record. -/
def Transition.undoGrid (t : Transition) (m : Color) (sq : SquareIndex → Square) :
    SquareIndex → Square :=
  fun i =>
    if i = t.src.to_index then .Occupied ⟨t.moved, m⟩
    else if i = t.dst.to_index then t.dstRestore
    else
      match t.tag with
      | .Normal => sq i
      | .EnPassant => if i = t.capturedSquare.to_index then capturedSquareContent t else sq i
      | .Castling =>
        if i = t.rookFrom.to_index then .Occupied ⟨.Rook, m⟩
        else if i = t.rookTo.to_index then .Empty
        else sq i

/-- Modelled from the spec: XOR mask a transition applies to the moving
own pawn bitboard of the moving color. -/
def Transition.pawnMaskOwn (t : Transition) : Nat :=
  if t.moved = .Pawn then
    t.src.bitMask ^^^ (match t.promotion with | none => t.dst.bitMask | some _ => 0)
  else 0

/-- Modelled from the spec: XOR mask a transition applies through a pawn
capture to the pawn bitboard of color `c`. -/
def Transition.pawnMaskCap (t : Transition) (c : Color) : Nat :=
  match t.captured with
  | some p => if p.kind = .Pawn ∧ p.color = c then t.capturedSquare.bitMask else 0
  | none => 0

/-- Combined XOR mask for the pawn bitboard of color `c` (`m` moves). -/
def Transition.pawnMaskFor (t : Transition) (m c : Color) : Nat :=
  (if m = c then t.pawnMaskOwn else 0) ^^^ t.pawnMaskCap c

/-- Combined XOR mask for the `both` pawn bitboard. -/
def Transition.pawnMaskBoth (t : Transition) : Nat :=
  t.pawnMaskOwn ^^^ t.pawnMaskCap .White ^^^ t.pawnMaskCap .Black

/-- Modelled from the spec: incremental pawn-bitboard maintenance; the
same XOR masks reverse the update during `undo`. -/
def updatePawns (pw : ColoredData Nat) (t : Transition) (m : Color) : ColoredData Nat :=
  ⟨pw.white ^^^ t.pawnMaskFor m .White,
   pw.black ^^^ t.pawnMaskFor m .Black,
   pw.both ^^^ t.pawnMaskBoth⟩

/-- Modelled from the spec: removing a captured piece from the per-kind
counts (wrapping `u8` decrement, as on the `u8` fields of the source). -/
def applyCapCounts (pc : ColoredData PieceKindCounts) (t : Transition) :
    ColoredData PieceKindCounts :=
  match t.captured with
  | some p => pc.modifyCB p.color (fun c => c.modifyK p.kind decU8)
  | none => pc

/-- Modelled from the spec: restoring a captured piece to the per-kind
counts during `undo`. -/
def undoCapCounts (pc : ColoredData PieceKindCounts) (t : Transition) :
    ColoredData PieceKindCounts :=
  match t.captured with
  | some p => pc.modifyCB p.color (fun c => c.modifyK p.kind incU8)
  | none => pc

/-- Modelled from the spec: a promotion trades a pawn for the promoted
kind in the counts of the mover. -/
def applyPromoCounts (pc : ColoredData PieceKindCounts) (t : Transition) (m : Color) :
    ColoredData PieceKindCounts :=
  match t.promotion with
  | some k => pc.modifyCB m (fun c => (c.modifyK .Pawn decU8).modifyK k incU8)
  | none => pc

/-- Modelled from the spec: reversing a promotion in the counts of the mover
during `undo`. -/
def undoPromoCounts (pc : ColoredData PieceKindCounts) (t : Transition) (m : Color) :
    ColoredData PieceKindCounts :=
  match t.promotion with
  | some k => pc.modifyCB m (fun c => (c.modifyK k decU8).modifyK .Pawn incU8)
  | none => pc

/-- Modelled from the spec: capture side of the big/major/minor count
maintenance, parametrized by the kind-class selector `sel`. -/
def applyCapNat (d : ColoredData Nat) (t : Transition) (sel : PieceKind → Bool) :
    ColoredData Nat :=
  match t.captured with
  | some p => d.modifyCB p.color (condDec (sel p.kind))
  | none => d

/-- Modelled from the spec: inverse of `applyCapNat` during `undo`. -/
def undoCapNat (d : ColoredData Nat) (t : Transition) (sel : PieceKind → Bool) :
    ColoredData Nat :=
  match t.captured with
  | some p => d.modifyCB p.color (condInc (sel p.kind))
  | none => d

/-- Modelled from the spec: promotion side of the big/major/minor count
maintenance. -/
def applyPromoNat (d : ColoredData Nat) (t : Transition) (m : Color)
    (sel : PieceKind → Bool) : ColoredData Nat :=
  match t.promotion with
  | some k => d.modifyCB m (condInc (sel k))
  | none => d

/-- Modelled from the spec: inverse of `applyPromoNat` during `undo`. -/
def undoPromoNat (d : ColoredData Nat) (t : Transition) (m : Color)
    (sel : PieceKind → Bool) : ColoredData Nat :=
  match t.promotion with
  | some k => d.modifyCB m (condDec (sel k))
  | none => d

/-- Modelled from the spec: the en-passant target set by a two-square
pawn advance and cleared by every other transition (§3). -/
def Transition.newEpTarget (t : Transition) (m : Color) : Option Position :=
  if t.moved = .Pawn ∧ t.src.file = t.dst.file then
    match m, t.src.rank, t.dst.rank with
    | .White, .Two, .Four => some ⟨t.src.file, .Three⟩
    | .Black, .Seven, .Five => some ⟨t.src.file, .Six⟩
    | _, _, _ => none
  else none

/-- Castling-right bits lost by touching a corner square. -/
def cornerLoss (p : Position) : Nat :=
  if p = ⟨.A, .One⟩ then 2
  else if p = ⟨.H, .One⟩ then 1
  else if p = ⟨.A, .Eight⟩ then 8
  else if p = ⟨.H, .Eight⟩ then 4
  else 0

/-- Both castling-right bits of one color. -/
def colorRightsBits : Color → Nat
  | .White => 3
  | .Black => 12

/-- Modelled from the spec: castling-right bits a transition clears
(king moves, or moves/captures touching corner squares, §3). -/
def Transition.rightsLost (t : Transition) (m : Color) : Nat :=
  cornerLoss t.src ||| cornerLoss t.dst |||
  (if t.moved = .King then colorRightsBits m else 0)

/-- A small injective code for a piece, used by the modelled hash. -/
def Piece.code (p : Piece) : Nat :=
  (match p.kind with
   | .Pawn => 0
   | .Knight => 1
   | .Bishop => 2
   | .Rook => 3
   | .Queen => 4
   | .King => 5) * 2 +
  (match p.color with
   | .White => 0
   | .Black => 1)

/-- Modelled from the spec: per piece-square term of the incremental
position hash (the `ZobristKey` of the source carries no hash function; any
fixed table folds in reversibly by XOR). -/
def pieceSquareKey (p : Piece) (pos : Position) : Nat :=
  p.code * 64 + pos.bitIndex + 1

/-- Side-to-move term of the modelled position hash. -/
def sideKey : Nat := 2 ^ 63

/-- Modelled from the spec: total XOR delta a transition folds into the
position key (piece-square terms of the moved, placed, captured and
castling-rook pieces, plus the side-to-move term). -/
def Transition.keyDelta (t : Transition) (m : Color) : Nat :=
  pieceSquareKey ⟨t.moved, m⟩ t.src ^^^
  pieceSquareKey ⟨t.promotion.getD t.moved, m⟩ t.dst ^^^
  (match t.captured with
   | some p => pieceSquareKey p t.capturedSquare
   | none => 0) ^^^
  (match t.tag with
   | .Castling => pieceSquareKey ⟨.Rook, m⟩ t.rookFrom ^^^ pieceSquareKey ⟨.Rook, m⟩ t.rookTo
   | _ => 0) ^^^
  sideKey

/-- Modelled from the spec: `apply(transition)` of the Position
Controller (§4.5) — absent from the source, which only declares the
`Undo` struct and `history` stack.  Pushes an `Undo` record capturing
the pre-transition castling rights, en-passant target, fifty-move
counter and position key, mutates the grid and every aggregate in
lock-step, increments ply (a `u32`) and flips the side to move. -/
def Board.apply (b : Board) (t : Transition) : Board :=
  let m := b.turn
  { squares := t.applyGrid m b.squares
    turn := m.opposite
    en_passant_target := t.newEpTarget m
    pawns := updatePawns b.pawns t m
    pieces := applyPromoCounts (applyCapCounts b.pieces t) t m
    big_pieces := applyPromoNat (applyCapNat b.big_pieces t PieceKind.isBig) t m PieceKind.isBig
    major_pieces := applyPromoNat (applyCapNat b.major_pieces t PieceKind.isMajor) t m PieceKind.isMajor
    minor_pieces := applyPromoNat (applyCapNat b.minor_pieces t PieceKind.isMinor) t m PieceKind.isMinor
    kings := if t.moved = .King then b.kings.setC m t.dst else b.kings
    position_key := b.position_key ^^^ t.keyDelta m
    castling_rights := b.castling_rights &&& (15 ^^^ t.rightsLost m)
    fifty_moves := if t.moved = .Pawn ∨ t.captured.isSome then 0 else incU8 b.fifty_moves
    history := ⟨t, b.castling_rights, b.en_passant_target, b.fifty_moves, b.position_key⟩ :: b.history
    ply := (b.ply + 1) % 2 ^ 32 }

/-- Modelled from the spec: `undo()` of the Position Controller (§4.5)
— absent from the source.  Pops the most recent `Undo` record (failing
with the structural-misuse signal on an empty history), restores every
snapshot field, reverses the grid and counter updates exactly,
decrements ply and flips the side to move back. -/
def Board.undo (b : Board) : Except String Board :=
  match b.history with
  | [] => .error ("no history to undo")
  | u :: rest =>
    let m := b.turn.opposite
    let t := u.move_
    .ok
      { squares := t.undoGrid m b.squares
        turn := m
        en_passant_target := u.en_passant_target
        pawns := updatePawns b.pawns t m
        pieces := undoCapCounts (undoPromoCounts b.pieces t m) t
        big_pieces := undoCapNat (undoPromoNat b.big_pieces t m PieceKind.isBig) t PieceKind.isBig
        major_pieces := undoCapNat (undoPromoNat b.major_pieces t m PieceKind.isMajor) t PieceKind.isMajor
        minor_pieces := undoCapNat (undoPromoNat b.minor_pieces t m PieceKind.isMinor) t PieceKind.isMinor
        kings := if t.moved = .King then b.kings.setC m t.src else b.kings
        position_key := u.position_key
        castling_rights := u.castling_rights
        fifty_moves := u.fifty_move_counter
        history := rest
        ply := (b.ply + 2 ^ 32 - 1) % 2 ^ 32 }

/-- A transition is consistent with the position it is applied to (the
"pseudo-legal, pre-validated" contract of §6): the moved piece stands
on the source square, the destination holds exactly what the
capture field of the transition claims, special-move squares hold what the
tag implies, and the king cache agrees with the source of a king move. -/
def Board.wfTransition (b : Board) (t : Transition) : Prop :=
  b.squares t.src.to_index = Square.Occupied ⟨t.moved, b.turn⟩ ∧
  b.squares t.dst.to_index = t.dstRestore ∧
  (t.tag = .EnPassant → b.squares t.capturedSquare.to_index = capturedSquareContent t) ∧
  (t.tag = .Castling →
    b.squares t.rookFrom.to_index = Square.Occupied ⟨.Rook, b.turn⟩ ∧
    b.squares t.rookTo.to_index = Square.Empty) ∧
  (t.moved = .King → b.kings.get b.turn = t.src)

instance (b : Board) (t : Transition) : Decidable (b.wfTransition t) := by
  unfold Board.wfTransition
  infer_instance

/-- All three slots of a counted triple fit in a `u8`. -/
def ColoredData.countsLt (d : ColoredData PieceKindCounts) : Prop :=
  d.white.ltU8 ∧ d.black.ltU8 ∧ d.both.ltU8

instance (d : ColoredData PieceKindCounts) : Decidable d.countsLt := by
  unfold ColoredData.countsLt
  infer_instance

/-- All three slots of a `Nat` triple fit in a `u8`. -/
def ColoredData.natLt (d : ColoredData Nat) : Prop :=
  d.white < 256 ∧ d.black < 256 ∧ d.both < 256

instance (d : ColoredData Nat) : Decidable d.natLt := by
  unfold ColoredData.natLt
  infer_instance

/-- The stored machine-integer fields hold values their Rust types can
represent (always true of the running program; stated explicitly over
the `Nat` embedding). -/
def Board.countersU8 (b : Board) : Prop :=
  b.pieces.countsLt ∧ b.big_pieces.natLt ∧ b.major_pieces.natLt ∧
  b.minor_pieces.natLt ∧ b.ply < 2 ^ 32

instance (b : Board) : Decidable b.countersU8 := by
  unfold Board.countersU8
  infer_instance

/-- Concrete witness transition: the double pawn push e2–e4. -/
def t0 : Transition :=
  ⟨⟨.E, .Two⟩, ⟨.E, .Four⟩, .Pawn, none, none, .Normal⟩

/-- Number of pieces of one kind and color found by scanning the 64
playable cells of a grid (the recompute-from-Board-Grid scan of the spec). -/
def countKind (sq : SquareIndex → Square) (c : Color) (k : PieceKind) : Nat :=
  (allPositions.filter (fun p => sq p.to_index == Square.Occupied ⟨k, c⟩)).length

/-- Per-kind counts recomputed by scanning a grid. -/
def recomputeCounts (sq : SquareIndex → Square) (c : Color) : PieceKindCounts :=
  ⟨countKind sq c .Pawn, countKind sq c .Knight, countKind sq c .Bishop,
   countKind sq c .Rook, countKind sq c .Queen, countKind sq c .King⟩

/-- Number of occupied playable cells satisfying a piece predicate. -/
def countWhere (sq : SquareIndex → Square) (pred : Piece → Bool) : Nat :=
  (allPositions.filter (fun p =>
    match sq p.to_index with
    | .Occupied pc => pred pc
    | _ => false)).length

/-- Big-piece (non-pawn) count recomputed by scanning a grid. -/
def recomputeBig (sq : SquareIndex → Square) (c : Color) : Nat :=
  countWhere sq (fun p => p.color == c && p.kind.isBig)

/-- Major-piece (rook/queen) count recomputed by scanning a grid. -/
def recomputeMajor (sq : SquareIndex → Square) (c : Color) : Nat :=
  countWhere sq (fun p => p.color == c && p.kind.isMajor)

/-- Minor-piece (knight/bishop) count recomputed by scanning a grid. -/
def recomputeMinor (sq : SquareIndex → Square) (c : Color) : Nat :=
  countWhere sq (fun p => p.color == c && p.kind.isMinor)

/-- Pawn bitboard recomputed by scanning a grid. -/
def recomputePawnBitboard (sq : SquareIndex → Square) (c : Color) : Nat :=
  (allPositions.filter (fun p => sq p.to_index == Square.Occupied ⟨.Pawn, c⟩)).foldl
    (fun a p => a ||| p.bitMask) 0

/-- The index formula of §3 hits this index for some zero-based rank
and file in `[0,7]`. -/
def validIdx (i : Nat) : Bool :=
  (List.range 8).any (fun r => (List.range 8).any (fun f => i == (r + 2) * 10 + (f + 1)))

/-- A cell is a playable cell (`Empty` or `Occupied`), not the sentinel. -/
def Square.isPlayable : Square → Bool
  | .Empty => true
  | .Occupied _ => true
  | .OffBoard => false

theorem xor_xor_cancel (x a : Nat) : x ^^^ a ^^^ a = x := by
  rw [Nat.xor_assoc, Nat.xor_self, Nat.xor_zero]

theorem Color.opposite_opposite (c : Color) : c.opposite.opposite = c := by
  cases c <;> rfl

theorem decU8_lt (x : Nat) : decU8 x < 256 := by
  unfold decU8
  omega

theorem modifyK_cancel_incdec (c : PieceKindCounts) (k : PieceKind) (h : c.ltU8) :
    (c.modifyK k decU8).modifyK k incU8 = c := by
  obtain ⟨c1, c2, c3, c4, c5, c6⟩ := c
  simp only [PieceKindCounts.ltU8] at h
  obtain ⟨h1, h2, h3, h4, h5, h6⟩ := h
  cases k <;> simp [PieceKindCounts.modifyK, incU8, decU8] <;> omega

theorem promoElem_cancel (c : PieceKindCounts) (k : PieceKind) (h : c.ltU8) :
    (((c.modifyK .Pawn decU8).modifyK k incU8).modifyK k decU8).modifyK .Pawn incU8 = c := by
  obtain ⟨c1, c2, c3, c4, c5, c6⟩ := c
  simp only [PieceKindCounts.ltU8] at h
  obtain ⟨h1, h2, h3, h4, h5, h6⟩ := h
  cases k <;> simp [PieceKindCounts.modifyK, incU8, decU8] <;> omega

theorem ltU8_modifyK (c : PieceKindCounts) (k : PieceKind) (f : Nat → Nat)
    (hf : ∀ x, f x < 256) (h : c.ltU8) : (c.modifyK k f).ltU8 := by
  obtain ⟨c1, c2, c3, c4, c5, c6⟩ := c
  simp only [PieceKindCounts.ltU8] at h
  obtain ⟨h1, h2, h3, h4, h5, h6⟩ := h
  have g1 := hf c1
  have g2 := hf c2
  have g3 := hf c3
  have g4 := hf c4
  have g5 := hf c5
  have g6 := hf c6
  cases k <;> simp [PieceKindCounts.modifyK, PieceKindCounts.ltU8] <;> omega

theorem modifyCB_modifyCB {T : Type} (d : ColoredData T) (c : Color) (f g : T → T) :
    (d.modifyCB c f).modifyCB c g = d.modifyCB c (fun x => g (f x)) := by
  cases c <;> cases d <;> rfl

theorem modifyCB_eq_self {T : Type} (d : ColoredData T) (c : Color) (f : T → T)
    (h1 : f (d.get c) = d.get c) (h2 : f d.both = d.both) : d.modifyCB c f = d := by
  cases c <;> cases d <;> simp_all [ColoredData.get, ColoredData.modifyCB]

theorem countsLt_get (d : ColoredData PieceKindCounts) (c : Color) (h : d.countsLt) :
    (d.get c).ltU8 := by
  obtain ⟨hw, hb, _⟩ := h
  cases c with
  | White => exact hw
  | Black => exact hb

theorem cap_roundtrip (pc : ColoredData PieceKindCounts) (t : Transition)
    (h : pc.countsLt) : undoCapCounts (applyCapCounts pc t) t = pc := by
  cases hc : t.captured with
  | none => simp [applyCapCounts, undoCapCounts, hc]
  | some p =>
    simp only [applyCapCounts, undoCapCounts, hc]
    rw [modifyCB_modifyCB]
    exact modifyCB_eq_self _ _ _
      (modifyK_cancel_incdec _ _ (countsLt_get pc p.color h))
      (modifyK_cancel_incdec _ _ h.2.2)

theorem countsLt_applyCap (pc : ColoredData PieceKindCounts) (t : Transition)
    (h : pc.countsLt) : (applyCapCounts pc t).countsLt := by
  cases hc : t.captured with
  | none => simpa [applyCapCounts, hc] using h
  | some p =>
    simp only [applyCapCounts, hc]
    obtain ⟨hw, hb, hboth⟩ := h
    cases hcol : p.color with
    | White =>
      simp only [ColoredData.modifyCB, ColoredData.countsLt]
      exact ⟨ltU8_modifyK _ _ _ (fun x => decU8_lt x) hw, hb,
             ltU8_modifyK _ _ _ (fun x => decU8_lt x) hboth⟩
    | Black =>
      simp only [ColoredData.modifyCB, ColoredData.countsLt]
      exact ⟨hw, ltU8_modifyK _ _ _ (fun x => decU8_lt x) hb,
             ltU8_modifyK _ _ _ (fun x => decU8_lt x) hboth⟩

theorem promo_roundtrip (pc : ColoredData PieceKindCounts) (t : Transition) (m : Color)
    (h : pc.countsLt) : undoPromoCounts (applyPromoCounts pc t m) t m = pc := by
  cases hp : t.promotion with
  | none => simp [applyPromoCounts, undoPromoCounts, hp]
  | some k =>
    simp only [applyPromoCounts, undoPromoCounts, hp]
    rw [modifyCB_modifyCB]
    exact modifyCB_eq_self _ _ _
      (promoElem_cancel _ _ (countsLt_get pc m h))
      (promoElem_cancel _ _ h.2.2)

theorem counts_roundtrip (pc : ColoredData PieceKindCounts) (t : Transition) (m : Color)
    (h : pc.countsLt) :
    undoCapCounts (undoPromoCounts (applyPromoCounts (applyCapCounts pc t) t m) t m) t = pc := by
  rw [promo_roundtrip _ _ _ (countsLt_applyCap pc t h)]
  exact cap_roundtrip pc t h

theorem condInc_condDec (bb : Bool) (x : Nat) (h : x < 256) :
    condInc bb (condDec bb x) = x := by
  cases bb <;> simp [condInc, condDec, incU8, decU8] <;> omega

theorem promoCondElem_cancel (bb : Bool) (x : Nat) (h : x < 256) :
    condDec bb (condInc bb x) = x := by
  cases bb <;> simp [condInc, condDec, incU8, decU8] <;> omega

theorem condDec_lt (bb : Bool) (x : Nat) (h : x < 256) : condDec bb x < 256 := by
  cases bb <;> simp [condDec, decU8] <;> omega

theorem natLt_get (d : ColoredData Nat) (c : Color) (h : d.natLt) : d.get c < 256 := by
  obtain ⟨hw, hb, _⟩ := h
  cases c with
  | White => exact hw
  | Black => exact hb

theorem capNat_roundtrip (d : ColoredData Nat) (t : Transition) (sel : PieceKind → Bool)
    (h : d.natLt) : undoCapNat (applyCapNat d t sel) t sel = d := by
  cases hc : t.captured with
  | none => simp [applyCapNat, undoCapNat, hc]
  | some p =>
    simp only [applyCapNat, undoCapNat, hc]
    rw [modifyCB_modifyCB]
    exact modifyCB_eq_self _ _ _
      (condInc_condDec _ _ (natLt_get d p.color h))
      (condInc_condDec _ _ h.2.2)

theorem natLt_applyCapNat (d : ColoredData Nat) (t : Transition) (sel : PieceKind → Bool)
    (h : d.natLt) : (applyCapNat d t sel).natLt := by
  cases hc : t.captured with
  | none => simpa [applyCapNat, hc] using h
  | some p =>
    simp only [applyCapNat, hc]
    obtain ⟨hw, hb, hboth⟩ := h
    cases hcol : p.color with
    | White =>
      simp only [ColoredData.modifyCB, ColoredData.natLt]
      exact ⟨condDec_lt _ _ hw, hb, condDec_lt _ _ hboth⟩
    | Black =>
      simp only [ColoredData.modifyCB, ColoredData.natLt]
      exact ⟨hw, condDec_lt _ _ hb, condDec_lt _ _ hboth⟩

theorem promoNat_roundtrip (d : ColoredData Nat) (t : Transition) (m : Color)
    (sel : PieceKind → Bool) (h : d.natLt) :
    undoPromoNat (applyPromoNat d t m sel) t m sel = d := by
  cases hp : t.promotion with
  | none => simp [applyPromoNat, undoPromoNat, hp]
  | some k =>
    simp only [applyPromoNat, undoPromoNat, hp]
    rw [modifyCB_modifyCB]
    exact modifyCB_eq_self _ _ _
      (promoCondElem_cancel _ _ (natLt_get d m h))
      (promoCondElem_cancel _ _ h.2.2)

theorem natFamily_roundtrip (d : ColoredData Nat) (t : Transition) (m : Color)
    (sel : PieceKind → Bool) (h : d.natLt) :
    undoCapNat (undoPromoNat (applyPromoNat (applyCapNat d t sel) t m sel) t m sel) t sel = d := by
  rw [promoNat_roundtrip _ _ _ _ (natLt_applyCapNat d t sel h)]
  exact capNat_roundtrip d t sel h

theorem updatePawns_involutive (pw : ColoredData Nat) (t : Transition) (m : Color) :
    updatePawns (updatePawns pw t m) t m = pw := by
  obtain ⟨w, b, both⟩ := pw
  simp [updatePawns, xor_xor_cancel]

theorem setC_setC (K : ColoredPair Position) (c : Color) (x y : Position) :
    (K.setC c x).setC c y = K.setC c y := by
  cases c <;> cases K <;> rfl

theorem setC_get_self (K : ColoredPair Position) (c : Color) :
    K.setC c (K.get c) = K := by
  cases c <;> cases K <;> rfl

theorem grid_roundtrip (t : Transition) (m : Color) (sq : SquareIndex → Square)
    (hsrc : sq t.src.to_index = Square.Occupied ⟨t.moved, m⟩)
    (hdst : sq t.dst.to_index = t.dstRestore)
    (hep : t.tag = .EnPassant →
      sq t.capturedSquare.to_index = capturedSquareContent t)
    (hcast : t.tag = .Castling →
      sq t.rookFrom.to_index = Square.Occupied ⟨.Rook, m⟩ ∧
      sq t.rookTo.to_index = Square.Empty) :
    t.undoGrid m (t.applyGrid m sq) = sq := by
  funext i
  by_cases h1 : i = t.src.to_index
  · subst h1
    simp [Transition.undoGrid, Transition.applyGrid, hsrc]
  · by_cases h2 : i = t.dst.to_index
    · subst h2
      simp [Transition.undoGrid, Transition.applyGrid, h1, hdst]
    · cases htag : t.tag with
      | Normal => simp [Transition.undoGrid, Transition.applyGrid, h1, h2, htag]
      | EnPassant =>
        by_cases h3 : i = t.capturedSquare.to_index
        · subst h3
          simp [Transition.undoGrid, Transition.applyGrid, h1, h2, htag, hep htag]
        · simp [Transition.undoGrid, Transition.applyGrid, h1, h2, h3, htag]
      | Castling =>
        by_cases h3 : i = t.rookFrom.to_index
        · subst h3
          simp [Transition.undoGrid, Transition.applyGrid, h1, h2, htag, (hcast htag).1]
        · by_cases h4 : i = t.rookTo.to_index
          · subst h4
            simp [Transition.undoGrid, Transition.applyGrid, h1, h2, h3, htag,
              (hcast htag).2]
          · simp [Transition.undoGrid, Transition.applyGrid, h1, h2, h3, h4, htag]

/-- C2: for any transition consistent with the position it is applied
to (the pre-validated contract of §6) and machine-representable stored
counters, `apply(t)` followed by `undo()` restores the Board Grid,
aggregate counters, king cache, castling rights, en-passant target,
fifty-move counter, position key, ply, and side to move to their exact
pre-apply values.  The starting position `b` is arbitrary — in
particular it may carry any history, so the law holds at any nesting
depth of make/unmake. -/
theorem apply_undo_roundtrip (b : Board) (t : Transition)
    (hwf : b.wfTransition t) (hcnt : b.countersU8) :
    (b.apply t).undo = Except.ok b := by
  obtain ⟨hsrc, hdst, hep, hcast, hking⟩ := hwf
  obtain ⟨hpc, hbig, hmaj, hmin, hply⟩ := hcnt
  obtain ⟨sq, trn, ep, pw, pc, bg, mj, mn, kg, pk, cr, fm, hist, ply⟩ := b
  simp only [Board.apply, Board.undo, Color.opposite_opposite, Except.ok.injEq,
    Board.mk.injEq]
  refine ⟨?_, trivial, trivial, ?_, ?_, ?_, ?_, ?_, ?_, trivial, trivial, trivial,
    trivial, ?_⟩
  · exact grid_roundtrip t trn sq hsrc hdst hep hcast
  · exact updatePawns_involutive pw t trn
  · exact counts_roundtrip pc t trn hpc
  · exact natFamily_roundtrip bg t trn PieceKind.isBig hbig
  · exact natFamily_roundtrip mj t trn PieceKind.isMajor hmaj
  · exact natFamily_roundtrip mn t trn PieceKind.isMinor hmin
  · by_cases hk : t.moved = PieceKind.King
    · have hget : ColoredPair.get kg trn = t.src := hking hk
      simp only [hk, reduceIte]
      rw [setC_setC, ← hget, setC_get_self]
    · simp [hk]
  · have hply2 : ply < 2 ^ 32 := hply
    omega

/-- C2 witness: the round-trip law applied to the initial position and
the concrete double pawn push e2–e4, both hypotheses discharged by
computation. -/
theorem apply_undo_roundtrip_witness :
    (Board.new.apply t0).undo = Except.ok Board.new :=
  apply_undo_roundtrip Board.new t0 (by decide) (by decide)

/-- C4: calling `undo()` with an empty history stack signals the
distinct structural-misuse failure ("no history to undo") instead of
mutating anything — in this pure embedding the failing call returns
only the error value, so the position value is untouched and nothing is
popped. -/
theorem undo_empty_history (b : Board) (h : b.history = []) :
    b.undo = Except.error ("no history to undo") := by
  obtain ⟨sq, trn, ep, pw, pc, bg, mj, mn, kg, pk, cr, fm, hist, ply⟩ := b
  cases hist with
  | nil => rfl
  | cons u rest => exact absurd h (by simp)

/-- C4 witness: `undo_empty_history` applied to the freshly initialized
board, whose history is empty by construction. -/
theorem undo_empty_history_witness :
    Board.new.undo = Except.error ("no history to undo") :=
  undo_empty_history Board.new rfl

/-- C6: `to_index` computes `(rank + 2) * 10 + (file + 1)` with rank and
file zero-based, is injective over all 64 coordinates, and satisfies
the spot values a1 ↦ 21, h1 ↦ 28, a8 ↦ 91, h8 ↦ 98, e4 ↦ 55. -/
theorem to_index_formula_injective_spot :
    (∀ p : Position, p.to_index = (p.rank.toNat + 2) * 10 + (p.file.toNat + 1)) ∧
    (∀ p q : Position, p.to_index = q.to_index → p = q) ∧
    Position.to_index ⟨.A, .One⟩ = 21 ∧
    Position.to_index ⟨.H, .One⟩ = 28 ∧
    Position.to_index ⟨.A, .Eight⟩ = 91 ∧
    Position.to_index ⟨.H, .Eight⟩ = 98 ∧
    Position.to_index ⟨.E, .Four⟩ = 55 := by
  refine ⟨fun p => rfl, by decide, by decide, by decide, by decide, by decide, by decide⟩

/-- C6 witness: the injectivity component of
`to_index_formula_injective_spot` applied at the concrete coordinate
e4, its hypothesis discharged by computation. -/
theorem to_index_inj_witness :
    (⟨File.E, Rank.Four⟩ : Position) = ⟨File.E, Rank.Four⟩ :=
  to_index_formula_injective_spot.2.1 ⟨File.E, Rank.Four⟩ ⟨File.E, Rank.Four⟩ rfl

/-- C9: the `u8` arithmetic inside `to_index` never wraps — performing
every intermediate step modulo 256 gives the same value as the exact
computation, and the result always lies in `[21, 98]`, well inside the
`u8` range, so `to_index` is total on the 64 valid coordinates. -/
theorem to_index_u8_exact :
    ∀ p : Position, p.to_index_u8 = p.to_index ∧ 21 ≤ p.to_index ∧ p.to_index ≤ 98 := by
  decide

/-- C10: the unicode glyph returned by `to_unicode` is independent of
the color argument — both colors render with the same filled glyph. -/
theorem to_unicode_color_independent :
    ∀ (k : PieceKind) (c1 c2 : Color), k.to_unicode c1 = k.to_unicode c2 := by
  intro k c1 c2
  cases k <;> rfl

/-- C8: rendering a coordinate yields exactly the two-character
algebraic form — the file letter (codepoint of a plus the file index)
followed by the rank digit (codepoint of 1 plus the rank index) — with
the spot values a1, e4, h8. -/
theorem render_algebraic :
    (∀ p : Position, p.toAlgebraic =
      String.mk [Char.ofNat (97 + p.file.toNat), Char.ofNat (49 + p.rank.toNat)]) ∧
    Position.toAlgebraic ⟨.A, .One⟩ = "a1" ∧
    Position.toAlgebraic ⟨.E, .Four⟩ = "e4" ∧
    Position.toAlgebraic ⟨.H, .Eight⟩ = "h8" := by
  refine ⟨fun p => rfl, by decide, by decide, by decide⟩

/-- C7: `Board::new` initializes side to move White, no en-passant
target, all four castling-right bits set (value 15), fifty-move counter
0, ply 0, and an empty history stack. -/
theorem new_flags :
    Board.new.turn = Color.White ∧
    Board.new.en_passant_target = none ∧
    Board.new.castling_rights =
      (CastlingRight.WhiteKingSide.toNat ||| CastlingRight.WhiteQueenSide.toNat |||
       CastlingRight.BlackKingSide.toNat ||| CastlingRight.BlackQueenSide.toNat) ∧
    Board.new.castling_rights = 15 ∧
    Board.new.fifty_moves = 0 ∧
    Board.new.ply = 0 ∧
    Board.new.history = [] := by
  refine ⟨rfl, rfl, rfl, by decide, rfl, rfl, rfl⟩

/-- C5: after `Board::new`, every grid index of the form
`(rank + 2) * 10 + (file + 1)` for rank, file in `[0,7]` holds `Empty`
or `Occupied`, and every other index of the 120-cell array holds
`OffBoard`. -/
theorem grid_sentinel_layout :
    ∀ i : Fin 120,
      (validIdx i.val = true ∧ (Board.new.squares i.val).isPlayable = true) ∨
      (validIdx i.val = false ∧ Board.new.squares i.val = Square.OffBoard) := by
  decide

/-- C3: after `Board::new`, each back rank holds, from file a to file h,
Rook, Knight, Bishop, Queen, King, Bishop, Knight, Rook of the matching
color, ranks 2 and 7 hold pawns of the matching color, ranks 3–6 are
entirely empty, and the king cache records the White king at e1 and the
Black king at e8. -/
theorem starting_position_layout :
    Board.new.squares (Position.to_index ⟨.A, .One⟩) = Square.Occupied ⟨.Rook, .White⟩ ∧
    Board.new.squares (Position.to_index ⟨.B, .One⟩) = Square.Occupied ⟨.Knight, .White⟩ ∧
    Board.new.squares (Position.to_index ⟨.C, .One⟩) = Square.Occupied ⟨.Bishop, .White⟩ ∧
    Board.new.squares (Position.to_index ⟨.D, .One⟩) = Square.Occupied ⟨.Queen, .White⟩ ∧
    Board.new.squares (Position.to_index ⟨.E, .One⟩) = Square.Occupied ⟨.King, .White⟩ ∧
    Board.new.squares (Position.to_index ⟨.F, .One⟩) = Square.Occupied ⟨.Bishop, .White⟩ ∧
    Board.new.squares (Position.to_index ⟨.G, .One⟩) = Square.Occupied ⟨.Knight, .White⟩ ∧
    Board.new.squares (Position.to_index ⟨.H, .One⟩) = Square.Occupied ⟨.Rook, .White⟩ ∧
    Board.new.squares (Position.to_index ⟨.A, .Eight⟩) = Square.Occupied ⟨.Rook, .Black⟩ ∧
    Board.new.squares (Position.to_index ⟨.B, .Eight⟩) = Square.Occupied ⟨.Knight, .Black⟩ ∧
    Board.new.squares (Position.to_index ⟨.C, .Eight⟩) = Square.Occupied ⟨.Bishop, .Black⟩ ∧
    Board.new.squares (Position.to_index ⟨.D, .Eight⟩) = Square.Occupied ⟨.Queen, .Black⟩ ∧
    Board.new.squares (Position.to_index ⟨.E, .Eight⟩) = Square.Occupied ⟨.King, .Black⟩ ∧
    Board.new.squares (Position.to_index ⟨.F, .Eight⟩) = Square.Occupied ⟨.Bishop, .Black⟩ ∧
    Board.new.squares (Position.to_index ⟨.G, .Eight⟩) = Square.Occupied ⟨.Knight, .Black⟩ ∧
    Board.new.squares (Position.to_index ⟨.H, .Eight⟩) = Square.Occupied ⟨.Rook, .Black⟩ ∧
    (∀ f : File, Board.new.squares (Position.to_index ⟨f, .Two⟩) =
      Square.Occupied ⟨.Pawn, .White⟩) ∧
    (∀ f : File, Board.new.squares (Position.to_index ⟨f, .Seven⟩) =
      Square.Occupied ⟨.Pawn, .Black⟩) ∧
    (∀ f : File, Board.new.squares (Position.to_index ⟨f, .Three⟩) = Square.Empty) ∧
    (∀ f : File, Board.new.squares (Position.to_index ⟨f, .Four⟩) = Square.Empty) ∧
    (∀ f : File, Board.new.squares (Position.to_index ⟨f, .Five⟩) = Square.Empty) ∧
    (∀ f : File, Board.new.squares (Position.to_index ⟨f, .Six⟩) = Square.Empty) ∧
    Board.new.kings.white = ⟨.E, .One⟩ ∧
    Board.new.kings.black = ⟨.E, .Eight⟩ := by
  decide

/-- C1 counterexample: already immediately after `Board::new` — before
any `apply` — recomputing the White per-kind counts by scanning the
Board Grid does not yield the stored counters: the scan finds the 8
starting pawns while the stored counter field still holds its default
0.  The incrementally maintained counters are never synchronized with
the grid the initializer fills. -/
theorem recompute_ne_stored_after_new :
    ¬ recomputeCounts Board.new.squares Color.White = Board.new.pieces.white := by
  decide

/-- C1 amended: after `Board::new`, every stored aggregate counter
(per-kind counts, pawn bitboards, big/major/minor counts) still holds
its default value 0, while recomputing the same quantities by scanning
the Board Grid yields the standard starting-position values — so the
stored counters are not derivable from the grid; the lock-step
maintenance the spec requires is not implemented by the initializer. -/
theorem counters_default_and_recompute_after_new :
    Board.new.pieces =
      ⟨⟨0, 0, 0, 0, 0, 0⟩, ⟨0, 0, 0, 0, 0, 0⟩, ⟨0, 0, 0, 0, 0, 0⟩⟩ ∧
    Board.new.pawns = ⟨0, 0, 0⟩ ∧
    Board.new.big_pieces = ⟨0, 0, 0⟩ ∧
    Board.new.major_pieces = ⟨0, 0, 0⟩ ∧
    Board.new.minor_pieces = ⟨0, 0, 0⟩ ∧
    recomputeCounts Board.new.squares Color.White = ⟨8, 2, 2, 2, 1, 1⟩ ∧
    recomputeCounts Board.new.squares Color.Black = ⟨8, 2, 2, 2, 1, 1⟩ ∧
    recomputeBig Board.new.squares Color.White = 8 ∧
    recomputeBig Board.new.squares Color.Black = 8 ∧
    recomputeMajor Board.new.squares Color.White = 3 ∧
    recomputeMajor Board.new.squares Color.Black = 3 ∧
    recomputeMinor Board.new.squares Color.White = 4 ∧
    recomputeMinor Board.new.squares Color.Black = 4 ∧
    recomputePawnBitboard Board.new.squares Color.White = 65280 ∧
    recomputePawnBitboard Board.new.squares Color.Black = 71776119061217280 := by
  decide

end Chess
